import Mathlib

/-!
A verification development for the smart_home simulation engine.

The Python source is shallowly embedded: Python `float` values are modelled as
exact rationals (`ℚ`), Python `int` as `Int`, Python dictionaries as
association lists that preserve insertion order, and the ambient real-time
clock reading `time()` is made an explicit parameter `realNow`.
-/

namespace SmartHome

/-! ### Constants (`public/constants.py`) -/

def MIN_APP_TIME : Int := 0

def MAX_APP_TIME : Int := 5184000

def MIN_SPEEDUP_FACTOR : ℚ := 1

def MAX_SPEEDUP_FACTOR : ℚ := 3600

def DEFAULT_SPEEDUP_FACTOR : ℚ := 60

def MIN_THERMOSTAT_TEMP : Int := 55

def MAX_THERMOSTAT_TEMP : Int := 85

/-! ### AppClock (`public/time/AppClock.py`)

The wall-clock reading `time()` from the Python `time` module is passed
explicitly as `realNow`.  In Python, `appTimeZero` and `realTimeZero` are
unset attributes until `start()` runs; the embedding gives them placeholder
value `0` at construction, and every theorem about the clock assumes a
started clock (`running = true`), matching the states where Python can read
those attributes. -/

structure AppClock where
  running : Bool
  minTime : ℚ
  maxTime : ℚ
  speedupFactor : ℚ
  appTimeZero : ℚ
  realTimeZero : ℚ
  deriving Repr

def AppClock.init (minTime maxTime speedupFactor : ℚ) : AppClock :=
  { running := false
    minTime := minTime
    maxTime := maxTime
    speedupFactor := speedupFactor
    appTimeZero := 0
    realTimeZero := 0 }

def AppClock.start (c : AppClock) (realNow : ℚ) : AppClock :=
  { c with running := true, appTimeZero := c.minTime, realTimeZero := realNow }

def AppClock.time (c : AppClock) (realNow : ℚ) : ℚ :=
  min (c.appTimeZero + (realNow - c.realTimeZero) * c.speedupFactor) c.maxTime

def AppClock.getSpeedupFactor (c : AppClock) : ℚ :=
  c.speedupFactor

def AppClock.setSpeedupFactor (c : AppClock) (speedupFactor realNow : ℚ) : AppClock :=
  { c with
    appTimeZero := c.time realNow
    realTimeZero := realNow
    speedupFactor := speedupFactor }

/-! ### Formulas (`public/analysis/Formulas.py`)

Decimal float literals of the source (`0.12`, `2.52`, `7.48`) are modelled as
the exact rationals they denote. -/

def Formulas.isHvacRunning (indoorTemp thermostatTemp : ℚ) : Bool :=
  decide (2 < |thermostatTemp - indoorTemp|)

def Formulas.hvacElectricityUsage (hvacRunningTime : ℚ) : ℚ :=
  3500 / 3600 * hvacRunningTime

def Formulas.hvacIndoorTempChangeAndElectricityUsage
    (indoorTemp thermostatTemp totalTime : ℚ) : ℚ × ℚ :=
  if Formulas.isHvacRunning indoorTemp thermostatTemp then
    let changePerSecond : ℚ := 1 / 60
    let difference : ℚ := |thermostatTemp - indoorTemp|
    let changeDirection : ℚ := if indoorTemp < thermostatTemp then 1 else -1
    let maxPossibleChange : ℚ := changePerSecond * totalTime
    let actualChange : ℚ := min difference maxPossibleChange
    let hvacRunningTime : ℚ := actualChange / changePerSecond
    (changeDirection * actualChange, Formulas.hvacElectricityUsage hvacRunningTime)
  else (0, 0)

def Formulas.electricityCost (electricityUsage totalTime : ℚ) : ℚ :=
  12 / 100 / 1000 / 3600 * electricityUsage * totalTime

def Formulas.waterCost (waterUsage : ℚ) : ℚ :=
  252 / 100 / 100 / (748 / 100) * waterUsage

/-! ### Claims about the clock and the formulas -/

/-- Claim C1: for every started clock and every speedup factor within the
configured bounds, `setSpeedupFactor` leaves the value of an immediately
following `time()` call unchanged (exactly, in the rational model); only the
future rate changes. -/
theorem claim_C1 (c : AppClock) (f realNow : ℚ) (hrun : c.running = true)
    (hmin : MIN_SPEEDUP_FACTOR ≤ f) (hmax : f ≤ MAX_SPEEDUP_FACTOR) :
    (c.setSpeedupFactor f realNow).time realNow = c.time realNow := by
  simp only [AppClock.time, AppClock.setSpeedupFactor, sub_self, zero_mul, add_zero]
  rw [min_assoc, min_self]

/-- Witness for C1 at a concrete started clock. -/
theorem claim_C1_witness :
    (((AppClock.init 0 5184000 60).start 100).setSpeedupFactor 120 107).time 107
      = ((AppClock.init 0 5184000 60).start 100).time 107 :=
  claim_C1 ((AppClock.init 0 5184000 60).start 100) 120 107 rfl
    (by norm_num [MIN_SPEEDUP_FACTOR]) (by norm_num [MAX_SPEEDUP_FACTOR])

/-- Counterexample to claim C4 as stated: the electricity cost conversion does
not depend only on the usage amount — the same usage figure over windows of
length 1 and 2 seconds yields different costs. -/
theorem claim_C4_counterexample :
    Formulas.electricityCost 100 1 ≠ Formulas.electricityCost 100 2 := by
  norm_num [Formulas.electricityCost]

/-- Claim C4 (amended): electricity cost is `0.12 / 1000 / 3600 × usage ×
elapsedSeconds` — it multiplies the usage figure by the window length as well
as by the fixed rate (exact rate `1 / 30000000` dollars) — while water cost is
exactly `2.52 / 100 / 7.48 × gallons` (exact rate `63 / 18700` dollars per
gallon), depending only on the gallons amount. -/
theorem claim_C4 (u t g : ℚ) :
    Formulas.electricityCost u t = 1 / 30000000 * u * t ∧
    Formulas.waterCost g = 63 / 18700 * g := by
  refine ⟨by norm_num [Formulas.electricityCost], by norm_num [Formulas.waterCost]⟩

/-- Claim C7: within the 2°F dead-band the HVAC step produces zero change and
zero electricity; outside it, it moves the indoor temperature toward the
thermostat by `min (|thermostat − indoor|) (totalTime / 60)` degrees and draws
`3500 × (runningSeconds / 3600)` with `runningSeconds = 60 × ` that change; in
particular `hvacStep 60 70 600 = (10, 3500 × 600 / 3600)`. -/
theorem claim_C7 (indoorTemp thermostatTemp totalTime : ℚ) (ht : 0 ≤ totalTime) :
    (|thermostatTemp - indoorTemp| ≤ 2 →
      Formulas.hvacIndoorTempChangeAndElectricityUsage indoorTemp thermostatTemp totalTime
        = (0, 0)) ∧
    (2 < |thermostatTemp - indoorTemp| →
      Formulas.hvacIndoorTempChangeAndElectricityUsage indoorTemp thermostatTemp totalTime
        = ((if indoorTemp < thermostatTemp then (1 : ℚ) else -1)
            * min (|thermostatTemp - indoorTemp|) (totalTime / 60),
           3500 * (60 * min (|thermostatTemp - indoorTemp|) (totalTime / 60)) / 3600)) ∧
    Formulas.hvacIndoorTempChangeAndElectricityUsage 60 70 600 = (10, 3500 * 600 / 3600) := by
  refine ⟨?_, ?_, ?_⟩
  · intro hle
    simp [Formulas.hvacIndoorTempChangeAndElectricityUsage, Formulas.isHvacRunning,
      not_lt.mpr hle]
  · intro hgt
    have harg : (1 : ℚ) / 60 * totalTime = totalTime / 60 := by ring
    simp only [Formulas.hvacIndoorTempChangeAndElectricityUsage, Formulas.isHvacRunning,
      Formulas.hvacElectricityUsage, decide_eq_true_eq, if_pos hgt, harg, Prod.mk.injEq,
      true_and]
    ring
  · norm_num [Formulas.hvacIndoorTempChangeAndElectricityUsage, Formulas.isHvacRunning,
      Formulas.hvacElectricityUsage]

/-- Witness for C7 at `indoor = 60`, `thermostat = 70`, `totalTime = 600`. -/
theorem claim_C7_witness :
    Formulas.hvacIndoorTempChangeAndElectricityUsage 60 70 600 = (10, 3500 * 600 / 3600) :=
  (claim_C7 60 70 600 (by norm_num)).2.2

/-! ### Events (`public/events/Event.py`)

An event carries either a boolean or an integer `new_value`; the store treats
both uniformly, while the tracker consumes only boolean events. -/

inductive EventValue
  | int (n : Int)
  | bool (b : Bool)
  deriving DecidableEq, Repr

structure Event where
  time : Int
  state_type : String
  state_key : String
  new_value : EventValue
  message : String
  deriving DecidableEq, Repr

structure BooleanEvent where
  time : Int
  state_type : String
  state_key : String
  new_value : Bool
  message : String
  deriving DecidableEq, Repr

/-! ### Usage rates (`public/analysis/UsageRate.py`) -/

def lookupD {α β : Type} [DecidableEq α] (l : List (α × β)) (k : α) (d : β) : β :=
  match l with
  | [] => d
  | (k', v) :: rest => if k = k' then v else lookupD rest k d

def ELECTRICITY_USAGE_RATE_MAP : List (String × ℚ) :=
  [("light", 60 / 3600), ("bathExhaustFan", 30 / 3600), ("refrigerator", 150 / 3600),
   ("microwave", 1100 / 3600), ("stove", 3500 / 3600), ("oven", 4000 / 3600),
   ("livingRoomTv", 636 / 3600), ("bedroomTv", 100 / 3600), ("dishWasher", 1800 / 3600),
   ("clothesWasher", 500 / 3600), ("clothesDryer", 3000 / 3600)]

def WATER_USAGE_RATE_MAP : List (String × (ℚ × ℚ)) :=
  [("shower", (25 / 15 / 60, 65 / 100)), ("bath", (30 / 30 / 60, 65 / 100)),
   ("dishWasher", (6 / 45 / 60, 1)), ("clothesWasher", (20 / 30 / 60, 85 / 100))]

/-! ### BooleanStateTracker (`public/analysis/BooleanStateTracker.py`)

`type` in the source is named `stateType` here; the water usage rate record is
the pair `(gallonsPerSecond, percentHot)`.  The `ValueError` raised on a
mismatched state key is modelled with `Except`. -/

structure BooleanStateTracker where
  stateType : String
  key : String
  value : Bool
  lastTimeTrue : Int
  totalTimeTrue : Int
  electricityUsageRate : ℚ
  waterUsageRate : ℚ × ℚ
  deriving DecidableEq, Repr

def BooleanStateTracker.mk0 (firstEvent : BooleanEvent) : BooleanStateTracker :=
  { stateType := firstEvent.state_type
    key := firstEvent.state_key
    value := firstEvent.new_value
    lastTimeTrue := firstEvent.time
    totalTimeTrue := 0
    electricityUsageRate := lookupD ELECTRICITY_USAGE_RATE_MAP firstEvent.state_type 0
    waterUsageRate := lookupD WATER_USAGE_RATE_MAP firstEvent.state_type (0, 0) }

def BooleanStateTracker.processEvent (s : BooleanStateTracker) (event : BooleanEvent) :
    Except String BooleanStateTracker :=
  if event.state_key ≠ s.key then
    Except.error ("event should have the tracked state key")
  else if s.value = true ∧ event.new_value = false then
    Except.ok { s with
      totalTimeTrue := s.totalTimeTrue + (event.time - s.lastTimeTrue)
      value := event.new_value }
  else if s.value = false ∧ event.new_value = true then
    Except.ok { s with
      lastTimeTrue := event.time
      value := event.new_value }
  else Except.ok s

def BooleanStateTracker.resetTotalTimeTrue (s : BooleanStateTracker) : BooleanStateTracker :=
  { s with totalTimeTrue := 0 }

def BooleanStateTracker.getTotalTimeTrue (s : BooleanStateTracker) : Int :=
  s.totalTimeTrue

/-- One slot of `BooleanStateTrackerMap.processEvent`: the entry for the
event's `(state_type, state_key)` is created from the event on first sight and
then the event is processed by it. -/
def processEventAtSlot (entry : Option BooleanStateTracker) (event : BooleanEvent) :
    Except String BooleanStateTracker :=
  match entry with
  | none => (BooleanStateTracker.mk0 event).processEvent event
  | some tracker => tracker.processEvent event

/-- Folding a stream of boolean events for one `(state_type, state_key)` slot
through `BooleanStateTrackerMap.processEvent`. -/
def processEventsAtSlot (entry : Option BooleanStateTracker) (events : List BooleanEvent) :
    Except String (Option BooleanStateTracker) :=
  match events with
  | [] => Except.ok entry
  | e :: rest =>
    match processEventAtSlot entry e with
    | Except.error msg => Except.error msg
    | Except.ok tracker => processEventsAtSlot (some tracker) rest

def frontDoorOpened (time : Int) : BooleanEvent :=
  { time := time
    state_type := "door"
    state_key := "frontDoor"
    new_value := true
    message := "opened" }

def frontDoorClosed (time : Int) : BooleanEvent :=
  { time := time
    state_type := "door"
    state_key := "frontDoor"
    new_value := false
    message := "closed" }

/-! ### Claims about the tracker -/

/-- Counterexample to claim C2 as stated: the tracker created by `true@10`,
after `resetTotalTimeTrue` (called, in the claimed scenario, at the window
boundary `100`), accumulates `190 = 200 − 10` on a subsequent `false@200` —
the time since the original transition to true, not `100 = 200 − resetTime`,
because the reset does not re-stamp `lastTransitionToTrueTime`. -/
theorem claim_C2_counterexample :
    Except.map BooleanStateTracker.getTotalTimeTrue
        ((BooleanStateTracker.mk0 (frontDoorOpened 10)).resetTotalTimeTrue.processEvent
          (frontDoorClosed 200))
      = Except.ok 190 ∧ (190 : Int) ≠ 200 - 100 := by
  constructor
  · rfl
  · decide

/-- Claim C2 (amended): `resetTotalTimeTrue` zeroes `totalTimeTrue` but leaves
`lastTransitionToTrueTime` unchanged, so a subsequent false event at time `t`
on a currently-true entry accumulates `t − lastTransitionToTrueTime` (measured
from the original transition to true, not from the reset boundary). -/
theorem claim_C2 (tr : BooleanStateTracker) (e : BooleanEvent)
    (hkey : e.state_key = tr.key) (hval : tr.value = true) (hev : e.new_value = false) :
    tr.resetTotalTimeTrue.totalTimeTrue = 0 ∧
    tr.resetTotalTimeTrue.lastTimeTrue = tr.lastTimeTrue ∧
    Except.map BooleanStateTracker.getTotalTimeTrue (tr.resetTotalTimeTrue.processEvent e)
      = Except.ok (e.time - tr.lastTimeTrue) := by
  refine ⟨rfl, rfl, ?_⟩
  simp [BooleanStateTracker.processEvent, BooleanStateTracker.resetTotalTimeTrue,
    BooleanStateTracker.getTotalTimeTrue, Except.map, hkey, hval, hev]

/-- Witness for C2 on the tracker created by `true@10` and the event
`false@200`. -/
theorem claim_C2_witness :
    (BooleanStateTracker.mk0 (frontDoorOpened 10)).resetTotalTimeTrue.totalTimeTrue
        = 0 ∧
    (BooleanStateTracker.mk0 (frontDoorOpened 10)).resetTotalTimeTrue.lastTimeTrue
        = (BooleanStateTracker.mk0 (frontDoorOpened 10)).lastTimeTrue ∧
    Except.map BooleanStateTracker.getTotalTimeTrue
        ((BooleanStateTracker.mk0 (frontDoorOpened 10)).resetTotalTimeTrue.processEvent
          (frontDoorClosed 200))
      = Except.ok ((frontDoorClosed 200).time
          - (BooleanStateTracker.mk0 (frontDoorOpened 10)).lastTimeTrue) :=
  claim_C2 (BooleanStateTracker.mk0 (frontDoorOpened 10))
    (frontDoorClosed 200) rfl rfl rfl

/-- Claim C8: a false→true transition re-stamps `lastTransitionToTrueTime`, a
true→false transition adds `event.time − lastTransitionToTrueTime` to
`totalTimeTrue`, an event equal to the current value changes nothing, and
processing `true@10, false@40, true@100, false@130` for one key (the first
event creating the entry) leaves `totalTimeTrue = 60`. -/
theorem claim_C8 (tr : BooleanStateTracker) (e : BooleanEvent) (hkey : e.state_key = tr.key) :
    (tr.value = false → e.new_value = true →
      tr.processEvent e = Except.ok { tr with value := true, lastTimeTrue := e.time }) ∧
    (tr.value = true → e.new_value = false →
      tr.processEvent e = Except.ok { tr with
        value := false
        totalTimeTrue := tr.totalTimeTrue + (e.time - tr.lastTimeTrue) }) ∧
    (e.new_value = tr.value → tr.processEvent e = Except.ok tr) ∧
    Except.map (Option.map BooleanStateTracker.getTotalTimeTrue)
        (processEventsAtSlot none
          [frontDoorOpened 10, frontDoorClosed 40,
           frontDoorOpened 100, frontDoorClosed 130])
      = Except.ok (some 60) := by
  refine ⟨?_, ?_, ?_, ?_⟩
  · intro hval hev
    simp [BooleanStateTracker.processEvent, hkey, hval, hev]
  · intro hval hev
    simp [BooleanStateTracker.processEvent, hkey, hval, hev]
  · intro hsame
    rcases hb : tr.value with _ | _ <;>
      simp [BooleanStateTracker.processEvent, hkey, hb ▸ hsame, hb]
  · rfl

/-- Witness for C8: the tracker created by `true@10` treats a duplicate
`true@15` as a no-op. -/
theorem claim_C8_witness :
    (BooleanStateTracker.mk0 (frontDoorOpened 10)).processEvent
        (frontDoorOpened 15)
      = Except.ok (BooleanStateTracker.mk0 (frontDoorOpened 10)) :=
  (claim_C8 (BooleanStateTracker.mk0 (frontDoorOpened 10))
    (frontDoorOpened 15) rfl).2.2.1 rfl

/-! ### EventStore (`public/events/EventStore.py`)

`EventMap = Dict[int, Dict[StateKey, Dict[EventType, Event]]]` is modelled by
insertion-order-preserving association lists; the innermost dictionary, which
holds at most one event per provenance, becomes a pair of `Option Event`
fields.  `minTime`/`maxTime` are unset attributes until the first insertion,
modelled as `Option Int` starting at `none`. -/

inductive EventType
  | preGenerated
  | userGenerated
  deriving DecidableEq, Repr

structure EventContainer where
  userGenerated : Option Event
  preGenerated : Option Event
  deriving DecidableEq, Repr

def EventContainer.empty : EventContainer :=
  { userGenerated := none, preGenerated := none }

def EventContainer.put (c : EventContainer) (eventType : EventType) (e : Event) :
    EventContainer :=
  match eventType with
  | EventType.preGenerated => { c with preGenerated := some e }
  | EventType.userGenerated => { c with userGenerated := some e }

def EventContainer.get (c : EventContainer) (eventType : EventType) : Option Event :=
  match eventType with
  | EventType.preGenerated => c.preGenerated
  | EventType.userGenerated => c.userGenerated

/-- `container.pop("user-generated", None)`. -/
def EventContainer.popUserGenerated (c : EventContainer) : EventContainer :=
  { c with userGenerated := none }

def TimeSlot : Type := List (String × EventContainer)

def EventMap : Type := List (Int × TimeSlot)

/-- Python dictionary lookup on an insertion-ordered association list. -/
def assocGet {α β : Type} [DecidableEq α] (l : List (α × β)) (k : α) : Option β :=
  match l with
  | [] => none
  | (k', v) :: rest => if k = k' then some v else assocGet rest k

/-- Python `if k not in d: d[k] = dflt` followed by an in-place mutation of
`d[k]`: an existing key keeps its position, a new key is appended. -/
def assocUpdate {α β : Type} [DecidableEq α] (l : List (α × β)) (k : α) (dflt : β)
    (f : β → β) : List (α × β) :=
  match l with
  | [] => [(k, f dflt)]
  | (k', v) :: rest =>
    if k = k' then (k', f v) :: rest else (k', v) :: assocUpdate rest k dflt f

structure EventStore where
  map : List (Int × (List (String × EventContainer)))
  minTime : Option Int
  maxTime : Option Int
  deriving DecidableEq, Repr

def EventStore.emptyStore : EventStore :=
  { map := [], minTime := none, maxTime := none }

def EventStore.isEmpty (s : EventStore) : Bool :=
  s.map.isEmpty

def EventStore.putEvent (s : EventStore) (eventType : EventType) (e : Event) : EventStore :=
  { map := assocUpdate s.map e.time [] (fun slot =>
      assocUpdate slot e.state_key EventContainer.empty (fun c => c.put eventType e))
    minTime := some (match s.minTime with
      | none => e.time
      | some m => min m e.time)
    maxTime := some (match s.maxTime with
      | none => e.time
      | some m => max m e.time) }

def EventStore.putEvents (s : EventStore) (eventType : EventType) (events : List Event) :
    EventStore :=
  events.foldl (fun acc e => acc.putEvent eventType e) s

/-- `clearUserGeneratedEvents` iterates `range(minTime, maxTime + 1)` and pops
the user-generated layer of every slot it finds; its bounds are never
recomputed.  When the bounds were never set Python raises `AttributeError`;
that unreachable-in-practice branch is modelled as the identity. -/
def EventStore.clearUserGeneratedEvents (s : EventStore) : EventStore :=
  match s.minTime, s.maxTime with
  | some a, some b =>
    { s with map := s.map.map (fun ts =>
        (ts.fst,
         if a ≤ ts.fst ∧ ts.fst ≤ b then
           ts.snd.map (fun kc => (kc.fst, kc.snd.popUserGenerated))
         else ts.snd)) }
  | _, _ => s

/-- The inner helper of `yieldEvents`: with a provenance given, the event of
that provenance; otherwise the user-generated event if present (it takes
precedence), else the pre-generated one. -/
def getEventFromContainer (eventType : Option EventType) (c : EventContainer) : Option Event :=
  match eventType with
  | some t => c.get t
  | none =>
    match c.userGenerated with
    | some e => some e
    | none => c.preGenerated

/-- Python `range(a, b)` over integers. -/
def intRange (a b : Int) : List Int :=
  (List.range (b - a).toNat).map (fun (i : Nat) => a + i)

/-- The body of the per-time loop of `yieldEvents`: a provided non-empty
`stateKeys` set restricts and orders the inner iteration (Python
`if stateKeys:` also treats an empty set as not provided); otherwise all keys
of the slot are visited in insertion order. -/
def slotYield (eventType : Option EventType) (stateKeys : Option (List String))
    (slot : List (String × EventContainer)) : List Event :=
  match stateKeys with
  | some ks =>
    if ks.isEmpty then
      slot.filterMap (fun kc => getEventFromContainer eventType kc.snd)
    else
      ks.filterMap (fun k => (assocGet slot k).bind (getEventFromContainer eventType))
  | none => slot.filterMap (fun kc => getEventFromContainer eventType kc.snd)

def EventStore.yieldEvents (s : EventStore) (startTime endTime : Option Int)
    (stateKeys : Option (List String)) (eventType : Option EventType) : List Event :=
  if s.map.isEmpty then []
  else
    let a := startTime.getD (s.minTime.getD 0)
    let b := endTime.getD (s.maxTime.getD 0 + 1)
    (intRange a b).flatMap (fun t =>
      match assocGet s.map t with
      | none => []
      | some slot => slotYield eventType stateKeys slot)

/-- The container stored for a `(time, stateKey)` slot. -/
def EventStore.containerAt (s : EventStore) (t : Int) (k : String) : Option EventContainer :=
  (assocGet s.map t).bind (fun slot => assocGet slot k)

/-- All events currently stored, of either provenance. -/
def EventStore.storedEvents (s : EventStore) : List Event :=
  s.map.flatMap (fun ts => ts.snd.flatMap (fun kc =>
    kc.snd.userGenerated.toList ++ kc.snd.preGenerated.toList))

/-- Executable well-formedness of a store: per-slot state keys are distinct
(they come from a Python dictionary) and every stored event is filed under its
own time and state key (guaranteed by `putEvents`, which indexes an event by
`event["time"]` and `event["state_key"]`). -/
def containerWB (t : Int) (k : String) (c : EventContainer) : Bool :=
  (match c.userGenerated with
   | none => true
   | some e => e.time == t && e.state_key == k) &&
  (match c.preGenerated with
   | none => true
   | some e => e.time == t && e.state_key == k)

def EventStore.wf (s : EventStore) : Bool :=
  s.map.all (fun ts =>
    decide (ts.snd.map Prod.fst).Nodup &&
    ts.snd.all (fun kc => containerWB ts.fst kc.fst kc.snd))

/-! ### Association-list and range lemmas -/

theorem assocGet_mem {α β : Type} [DecidableEq α] {l : List (α × β)} {k : α} {v : β}
    (h : assocGet l k = some v) : (k, v) ∈ l := by
  induction l with
  | nil => simp [assocGet] at h
  | cons hd tl ih =>
    rcases hd with ⟨k', v'⟩
    by_cases hk : k = k'
    · subst hk
      simp only [assocGet, if_true, eq_self_iff_true, ite_true, Option.some.injEq] at h
      subst h
      exact List.mem_cons_self _ _
    · simp only [assocGet, if_neg hk] at h
      exact List.mem_cons_of_mem _ (ih h)

theorem assocGet_update_self {α β : Type} [DecidableEq α] (l : List (α × β)) (k : α)
    (dflt : β) (f : β → β) :
    assocGet (assocUpdate l k dflt f) k = some (f ((assocGet l k).getD dflt)) := by
  induction l with
  | nil => simp [assocGet, assocUpdate]
  | cons hd tl ih =>
    rcases hd with ⟨k', v'⟩
    by_cases hk : k = k'
    · subst hk
      simp [assocGet, assocUpdate]
    · simp [assocGet, assocUpdate, hk, ih]

theorem assocUpdate_ne_nil {α β : Type} [DecidableEq α] (l : List (α × β)) (k : α)
    (dflt : β) (f : β → β) : assocUpdate l k dflt f ≠ [] := by
  cases l with
  | nil => simp [assocUpdate]
  | cons hd tl =>
    rcases hd with ⟨k', v'⟩
    by_cases hk : k = k' <;> simp [assocUpdate, hk]

theorem assocGet_map_snd {α β : Type} [DecidableEq α] (l : List (α × β)) (g : α → β → β)
    (k : α) :
    assocGet (l.map (fun kv => (kv.fst, g kv.fst kv.snd))) k = (assocGet l k).map (g k) := by
  induction l with
  | nil => rfl
  | cons hd tl ih =>
    rcases hd with ⟨k', v'⟩
    by_cases hk : k = k' <;> simp [assocGet, hk, ih]

theorem mem_intRange {a b t : Int} : t ∈ intRange a b ↔ a ≤ t ∧ t < b := by
  unfold intRange
  rw [List.mem_map]
  constructor
  · rintro ⟨i, hi, rfl⟩
    rw [List.mem_range] at hi
    omega
  · intro h
    refine ⟨(t - a).toNat, ?_, ?_⟩
    · rw [List.mem_range]
      omega
    · omega

theorem intRange_nodup (a b : Int) : (intRange a b).Nodup := by
  unfold intRange
  refine List.Nodup.map ?_ (List.nodup_range _)
  intro i j h
  simp only at h
  omega

theorem flatMap_eq_nil_of_forall {α β : Type} {l : List α} {g : α → List β}
    (h : ∀ x ∈ l, g x = []) : l.flatMap g = [] := by
  induction l with
  | nil => rfl
  | cons hd tl ih =>
    rw [List.flatMap_cons, h hd (List.mem_cons_self _ _),
      ih (fun x hx => h x (List.mem_cons_of_mem _ hx))]
    rfl

theorem flatMap_eq_single {α β : Type} {l : List α} {g : α → List β} {t : α}
    (hnd : l.Nodup) (hmem : t ∈ l) (hz : ∀ x ∈ l, x ≠ t → g x = []) :
    l.flatMap g = g t := by
  induction l with
  | nil => cases hmem
  | cons hd tl ih =>
    rcases List.nodup_cons.mp hnd with ⟨hhd, htl⟩
    rcases List.mem_cons.mp hmem with heq | hmem'
    · subst heq
      have hz2 : tl.flatMap g = [] :=
        flatMap_eq_nil_of_forall (fun x hx =>
          hz x (List.mem_cons_of_mem _ hx) (fun hxt => hhd (hxt ▸ hx)))
      rw [List.flatMap_cons, hz2, List.append_nil]
    · have hgz : g hd = [] := hz hd (List.mem_cons_self _ _) (fun hht => hhd (hht ▸ hmem'))
      rw [List.flatMap_cons, hgz, List.nil_append]
      exact ih htl hmem' (fun x hx hxt => hz x (List.mem_cons_of_mem _ hx) hxt)

theorem filter_flatMap_comm {α β : Type} (l : List α) (g : α → List β) (p : β → Bool) :
    (l.flatMap g).filter p = l.flatMap (fun x => (g x).filter p) := by
  induction l with
  | nil => rfl
  | cons hd tl ih => simp [List.flatMap_cons, List.filter_append, ih]

/-! ### Store well-formedness lemmas -/

/-- The predicate singling out the events of one `(time, stateKey)` slot. -/
def slotPred (t : Int) (k : String) (e : Event) : Bool :=
  e.time == t && e.state_key == k

theorem containerWB_user {t : Int} {k : String} {c : EventContainer} {e : Event}
    (hwb : containerWB t k c = true) (h : c.userGenerated = some e) :
    e.time = t ∧ e.state_key = k := by
  unfold containerWB at hwb
  rw [h] at hwb
  simp only [Bool.and_eq_true, beq_iff_eq] at hwb
  exact hwb.1

theorem containerWB_pre {t : Int} {k : String} {c : EventContainer} {e : Event}
    (hwb : containerWB t k c = true) (h : c.preGenerated = some e) :
    e.time = t ∧ e.state_key = k := by
  unfold containerWB at hwb
  rw [h] at hwb
  simp only [Bool.and_eq_true, beq_iff_eq] at hwb
  exact hwb.2

theorem getEFC_none_cases {c : EventContainer} {e : Event}
    (h : getEventFromContainer none c = some e) :
    c.userGenerated = some e ∨ (c.userGenerated = none ∧ c.preGenerated = some e) := by
  unfold getEventFromContainer at h
  cases hu : c.userGenerated with
  | none => right; rw [hu] at h; exact ⟨rfl, h⟩
  | some eu => left; rw [hu] at h; exact h

theorem getEFC_none_wb {t : Int} {k : String} {c : EventContainer} {e : Event}
    (hwb : containerWB t k c = true) (h : getEventFromContainer none c = some e) :
    e.time = t ∧ e.state_key = k := by
  rcases getEFC_none_cases h with hu | ⟨_, hp⟩
  · exact containerWB_user hwb hu
  · exact containerWB_pre hwb hp

theorem wf_slot {s : EventStore} {t : Int} {slot : List (String × EventContainer)}
    (hwf : s.wf = true) (h : assocGet s.map t = some slot) :
    (slot.map Prod.fst).Nodup ∧ ∀ kc ∈ slot, containerWB t kc.fst kc.snd = true := by
  have hmem := assocGet_mem h
  unfold EventStore.wf at hwf
  rw [List.all_eq_true] at hwf
  have hts := hwf (t, slot) hmem
  simp only [Bool.and_eq_true, decide_eq_true_eq, List.all_eq_true] at hts
  exact ⟨hts.1, fun kc hkc => hts.2 kc hkc⟩

/-! ### The per-slot restriction of an unconstrained range query -/

theorem slot_filtered_nil_of_time {t' t : Int} {k : String}
    {slot : List (String × EventContainer)} (hne : t' ≠ t)
    (hwb : ∀ kc ∈ slot, containerWB t' kc.fst kc.snd = true) :
    (slot.filterMap (fun kc => getEventFromContainer none kc.snd)).filter (slotPred t k)
      = [] := by
  induction slot with
  | nil => rfl
  | cons hd tl ih =>
    have hhd := hwb hd (List.mem_cons_self _ _)
    have htl : ∀ kc ∈ tl, containerWB t' kc.fst kc.snd = true :=
      fun kc hkc => hwb kc (List.mem_cons_of_mem _ hkc)
    cases hg : getEventFromContainer none hd.snd with
    | none => simpa [List.filterMap_cons, hg] using ih htl
    | some e =>
      have he := getEFC_none_wb hhd hg
      have hpf : slotPred t k e = false := by
        simp [slotPred, he.1, hne]
      simpa [List.filterMap_cons, hg, List.filter_cons, hpf] using ih htl

theorem slot_filtered_nil_of_key {t : Int} {k : String}
    {slot : List (String × EventContainer)}
    (hnk : ∀ kc ∈ slot, kc.fst ≠ k)
    (hwb : ∀ kc ∈ slot, containerWB t kc.fst kc.snd = true) :
    (slot.filterMap (fun kc => getEventFromContainer none kc.snd)).filter (slotPred t k)
      = [] := by
  induction slot with
  | nil => rfl
  | cons hd tl ih =>
    have hhd := hwb hd (List.mem_cons_self _ _)
    have hhk := hnk hd (List.mem_cons_self _ _)
    have htl : ∀ kc ∈ tl, containerWB t kc.fst kc.snd = true :=
      fun kc hkc => hwb kc (List.mem_cons_of_mem _ hkc)
    have htk : ∀ kc ∈ tl, kc.fst ≠ k := fun kc hkc => hnk kc (List.mem_cons_of_mem _ hkc)
    cases hg : getEventFromContainer none hd.snd with
    | none => simpa [List.filterMap_cons, hg] using ih htk htl
    | some e =>
      have he := getEFC_none_wb hhd hg
      have hpf : slotPred t k e = false := by
        simp [slotPred, he.2, hhk]
      simpa [List.filterMap_cons, hg, List.filter_cons, hpf] using ih htk htl

theorem slot_filtered_eq {t : Int} {k : String} {slot : List (String × EventContainer)}
    (hnd : (slot.map Prod.fst).Nodup)
    (hwb : ∀ kc ∈ slot, containerWB t kc.fst kc.snd = true) :
    (slot.filterMap (fun kc => getEventFromContainer none kc.snd)).filter (slotPred t k)
      = ((assocGet slot k).bind (getEventFromContainer none)).toList := by
  induction slot with
  | nil => rfl
  | cons hd tl ih =>
    rcases hhd : hd with ⟨k', c⟩
    subst hhd
    rw [List.map_cons, List.nodup_cons] at hnd
    have hwhd := hwb (k', c) (List.mem_cons_self _ _)
    have htl : ∀ kc ∈ tl, containerWB t kc.fst kc.snd = true :=
      fun kc hkc => hwb kc (List.mem_cons_of_mem _ hkc)
    by_cases hk : k = k'
    · subst hk
      have hkeys : ∀ kc ∈ tl, kc.fst ≠ k := by
        intro kc hkc hkk
        exact hnd.1 (List.mem_map.mpr ⟨kc, hkc, hkk⟩)
      have htlnil :
          (tl.filterMap (fun kc => getEventFromContainer none kc.snd)).filter (slotPred t k)
            = [] :=
        slot_filtered_nil_of_key hkeys htl
      have hget : assocGet ((k, c) :: tl) k = some c := by
        simp [assocGet]
      rw [hget, Option.some_bind]
      cases hg : getEventFromContainer none c with
      | none =>
        simp only [List.filterMap_cons, hg]
        rw [htlnil]
        rfl
      | some e =>
        have he := getEFC_none_wb hwhd hg
        have hpt : slotPred t k e = true := by
          simp [slotPred, he.1, he.2]
        simp only [List.filterMap_cons, hg]
        rw [List.filter_cons, hpt, htlnil]
        rfl
    · have hrec := ih hnd.2 htl
      have hget : assocGet ((k', c) :: tl) k = assocGet tl k := by
        simp [assocGet, hk]
      rw [hget]
      cases hg : getEventFromContainer none c with
      | none =>
        simp only [List.filterMap_cons, hg]
        exact hrec
      | some e =>
        have he := getEFC_none_wb hwhd hg
        have hkey : (e.state_key == k) = false := by
          rw [he.2]
          exact beq_eq_false_iff_ne.mpr (fun hh => hk hh.symm)
        have hpf : slotPred t k e = false := by
          unfold slotPred
          rw [hkey, Bool.and_false]
        simp only [List.filterMap_cons, hg]
        rw [List.filter_cons, hpf]
        exact hrec

/-- Coupling lemma: under well-formedness, the events an unconstrained
no-provenance range query yields for slot `(t, k)` inside `[a, b)` are exactly
the preference-resolved content of that slot's container. -/
theorem yield_filtered (s : EventStore) (a b t : Int) (k : String)
    (hwf : s.wf = true) (hat : a ≤ t) (htb : t < b) :
    (s.yieldEvents (some a) (some b) none none).filter (slotPred t k)
      = ((s.containerAt t k).bind (getEventFromContainer none)).toList := by
  by_cases hm : s.map = []
  · simp [EventStore.yieldEvents, EventStore.containerAt, hm, assocGet]
  · have hne : s.map.isEmpty = false := by
      cases hmm : s.map with
      | nil => exact absurd hmm hm
      | cons hd tl => rfl
    unfold EventStore.yieldEvents
    rw [hne]
    simp only [Bool.false_eq_true, if_false, Option.getD_some]
    rw [filter_flatMap_comm]
    have hbody : ∀ x ∈ intRange a b, x ≠ t →
        ((match assocGet s.map x with
          | none => []
          | some slot => slotYield none none slot).filter (slotPred t k)) = [] := by
      intro x hx hxt
      cases hg : assocGet s.map x with
      | none => rfl
      | some slot =>
        have hws := wf_slot hwf hg
        exact slot_filtered_nil_of_time hxt hws.2
    rw [flatMap_eq_single (intRange_nodup a b) (mem_intRange.mpr ⟨hat, htb⟩) hbody]
    unfold EventStore.containerAt
    cases hg : assocGet s.map t with
    | none => rfl
    | some slot =>
      have hws := wf_slot hwf hg
      simpa [slotYield, Option.some_bind] using slot_filtered_eq hws.1 hws.2

/-- Claim C3: for every well-formed store and every `(t, k)` slot inside the
queried timeframe, a range query without provenance yields the user-generated
event when both provenances are present at the slot, the pre-generated event
when only that one is present, and nothing for the slot when neither is. -/
theorem claim_C3 (s : EventStore) (a b t : Int) (k : String)
    (hwf : s.wf = true) (hat : a ≤ t) (htb : t < b) :
    (∀ c eu ep, s.containerAt t k = some c → c.userGenerated = some eu →
      c.preGenerated = some ep →
      (s.yieldEvents (some a) (some b) none none).filter (slotPred t k) = [eu]) ∧
    (∀ c ep, s.containerAt t k = some c → c.userGenerated = none →
      c.preGenerated = some ep →
      (s.yieldEvents (some a) (some b) none none).filter (slotPred t k) = [ep]) ∧
    ((∀ c, s.containerAt t k = some c → c.userGenerated = none ∧ c.preGenerated = none) →
      (s.yieldEvents (some a) (some b) none none).filter (slotPred t k) = []) := by
  have H := yield_filtered s a b t k hwf hat htb
  refine ⟨?_, ?_, ?_⟩
  · intro c eu ep hc hu hp
    rw [H, hc]
    simp [getEventFromContainer, hu]
  · intro c ep hc hu hp
    rw [H, hc]
    simp [getEventFromContainer, hu, hp]
  · intro hnone
    rw [H]
    cases hc : s.containerAt t k with
    | none => rfl
    | some c =>
      have hn := hnone c hc
      simp [getEventFromContainer, hn.1, hn.2]

def demoPre : Event :=
  { time := 5
    state_type := "door"
    state_key := "frontDoor"
    new_value := EventValue.bool false
    message := "pre" }

def demoUser : Event :=
  { time := 5
    state_type := "door"
    state_key := "frontDoor"
    new_value := EventValue.bool true
    message := "user" }

def demoStore : EventStore :=
  (EventStore.emptyStore.putEvent EventType.preGenerated demoPre).putEvent
    EventType.userGenerated demoUser

/-- Witness for C3: with both provenances stored at `(5, frontDoor)`, the
no-provenance range query over `[0, 10)` yields the user-generated event. -/
theorem claim_C3_witness :
    (demoStore.yieldEvents (some 0) (some 10) none none).filter (slotPred 5 ("frontDoor"))
      = [demoUser] :=
  (claim_C3 demoStore 0 10 5 ("frontDoor") (by decide) (by decide) (by decide)).1
    { userGenerated := some demoUser, preGenerated := some demoPre }
    demoUser demoPre rfl rfl rfl

/-! ### Lemmas about `clearUserGeneratedEvents` -/

theorem clear_minTime (s : EventStore) :
    s.clearUserGeneratedEvents.minTime = s.minTime := by
  unfold EventStore.clearUserGeneratedEvents
  split
  · rfl
  · rfl

theorem clear_maxTime (s : EventStore) :
    s.clearUserGeneratedEvents.maxTime = s.maxTime := by
  unfold EventStore.clearUserGeneratedEvents
  split
  · rfl
  · rfl

theorem containerWB_pop {t : Int} {k : String} {c : EventContainer}
    (h : containerWB t k c = true) : containerWB t k c.popUserGenerated = true := by
  unfold containerWB at h ⊢
  unfold EventContainer.popUserGenerated
  rw [Bool.and_eq_true] at h
  rw [Bool.and_eq_true]
  exact ⟨rfl, h.2⟩

theorem clear_wf (s : EventStore) (hwf : s.wf = true) :
    s.clearUserGeneratedEvents.wf = true := by
  unfold EventStore.clearUserGeneratedEvents
  split
  next ha hb =>
    rename_i a b
    unfold EventStore.wf at hwf ⊢
    rw [List.all_eq_true] at hwf ⊢
    intro ts' hts'
    rcases List.mem_map.mp hts' with ⟨ts, hts, hts'eq⟩
    have hwts := hwf ts hts
    simp only [Bool.and_eq_true, decide_eq_true_eq, List.all_eq_true] at hwts
    subst hts'eq
    simp only [Bool.and_eq_true, decide_eq_true_eq, List.all_eq_true]
    by_cases hcond : a ≤ ts.fst ∧ ts.fst ≤ b
    · rw [if_pos hcond]
      refine ⟨?_, ?_⟩
      · have hkeys : (ts.snd.map (fun kc => (kc.fst, kc.snd.popUserGenerated))).map Prod.fst
            = ts.snd.map Prod.fst := by
          rw [List.map_map]
          rfl
        rw [hkeys]
        exact hwts.1
      · intro kc' hkc'
        rcases List.mem_map.mp hkc' with ⟨kc, hkc, hkc'eq⟩
        subst hkc'eq
        exact containerWB_pop (hwts.2 kc hkc)
    · rw [if_neg hcond]
      exact hwts
  next => exact hwf

theorem clear_containerAt (s : EventStore) (a b : Int)
    (hmin : s.minTime = some a) (hmax : s.maxTime = some b)
    (hcov : ∀ ts ∈ s.map, a ≤ ts.fst ∧ ts.fst ≤ b) (t : Int) (k : String) :
    s.clearUserGeneratedEvents.containerAt t k
      = (s.containerAt t k).map EventContainer.popUserGenerated := by
  unfold EventStore.clearUserGeneratedEvents EventStore.containerAt
  rw [hmin, hmax]
  have hmap : assocGet (s.map.map (fun ts =>
        (ts.fst,
         if a ≤ ts.fst ∧ ts.fst ≤ b then
           ts.snd.map (fun kc => (kc.fst, kc.snd.popUserGenerated))
         else ts.snd))) t
      = (assocGet s.map t).map (fun slot =>
          if a ≤ t ∧ t ≤ b then
            slot.map (fun kc => (kc.fst, kc.snd.popUserGenerated))
          else slot) :=
    assocGet_map_snd s.map (fun t' slot =>
      if a ≤ t' ∧ t' ≤ b then
        slot.map (fun kc => (kc.fst, kc.snd.popUserGenerated))
      else slot) t
  rw [hmap]
  cases hg : assocGet s.map t with
  | none => rfl
  | some slot =>
    have hmem := assocGet_mem hg
    have hcond : a ≤ t ∧ t ≤ b := hcov (t, slot) hmem
    change assocGet (if a ≤ t ∧ t ≤ b then
        slot.map (fun kc => (kc.fst, kc.snd.popUserGenerated)) else slot) k
      = Option.map EventContainer.popUserGenerated (assocGet slot k)
    rw [if_pos hcond]
    have hmap2 : assocGet (slot.map (fun kc => (kc.fst, kc.snd.popUserGenerated))) k
        = (assocGet slot k).map EventContainer.popUserGenerated :=
      assocGet_map_snd slot (fun _ c => EventContainer.popUserGenerated c) k
    rw [hmap2]

/-- Claim C9: clearing user-generated events removes exactly the
user-provenance layer — the bounds are unchanged, every slot keeps its
pre-generated event, and a subsequent no-provenance range query returns the
pre-generated record of any slot that had one. -/
theorem claim_C9 (s : EventStore) (a b : Int)
    (hwf : s.wf = true) (hmin : s.minTime = some a) (hmax : s.maxTime = some b)
    (hcov : ∀ ts ∈ s.map, a ≤ ts.fst ∧ ts.fst ≤ b) :
    s.clearUserGeneratedEvents.minTime = s.minTime ∧
    s.clearUserGeneratedEvents.maxTime = s.maxTime ∧
    (∀ t k, s.clearUserGeneratedEvents.containerAt t k
        = (s.containerAt t k).map EventContainer.popUserGenerated) ∧
    (∀ t k, a ≤ t → t < b + 1 →
      (s.clearUserGeneratedEvents.yieldEvents (some a) (some (b + 1)) none none).filter
          (slotPred t k)
        = ((s.containerAt t k).bind (fun c => c.preGenerated)).toList) := by
  refine ⟨clear_minTime s, clear_maxTime s, ?_, ?_⟩
  · intro t k
    exact clear_containerAt s a b hmin hmax hcov t k
  · intro t k hat htb
    rw [yield_filtered s.clearUserGeneratedEvents a (b + 1) t k (clear_wf s hwf) hat htb]
    rw [clear_containerAt s a b hmin hmax hcov t k]
    cases s.containerAt t k with
    | none => rfl
    | some c => rfl

/-- Witness for C9 on the two-event demo store: after the clear, the range
query over the store's window returns the pre-generated event at
`(5, frontDoor)`. -/
theorem claim_C9_witness :
    (demoStore.clearUserGeneratedEvents.yieldEvents (some 5) (some 6) none none).filter
        (slotPred 5 ("frontDoor"))
      = ((demoStore.containerAt 5 ("frontDoor")).bind (fun c => c.preGenerated)).toList :=
  (claim_C9 demoStore 5 5 (by decide) rfl rfl (by decide)).2.2.2 5 ("frontDoor")
    (by decide) (by decide)

/-! ### Sequences of store operations (for the bounds invariant) -/

inductive StoreOp
  | putPre (e : Event)
  | putUser (e : Event)
  | clearUser

def applyOp (s : EventStore) : StoreOp → EventStore
  | StoreOp.putPre e => s.putEvent EventType.preGenerated e
  | StoreOp.putUser e => s.putEvent EventType.userGenerated e
  | StoreOp.clearUser => s.clearUserGeneratedEvents

def runOps (s : EventStore) (ops : List StoreOp) : EventStore :=
  ops.foldl applyOp s

/-- The times of all events inserted by a sequence of operations. -/
def insertedTimes : List StoreOp → List Int
  | [] => []
  | StoreOp.putPre e :: rest => e.time :: insertedTimes rest
  | StoreOp.putUser e :: rest => e.time :: insertedTimes rest
  | StoreOp.clearUser :: rest => insertedTimes rest

/-- The running minimum exactly as `putEvents` maintains `minTime`. -/
def minOfTimes (acc : Option Int) : List Int → Option Int
  | [] => acc
  | t :: rest => minOfTimes (some (match acc with
      | none => t
      | some m => min m t)) rest

/-- The running maximum exactly as `putEvents` maintains `maxTime`. -/
def maxOfTimes (acc : Option Int) : List Int → Option Int
  | [] => acc
  | t :: rest => maxOfTimes (some (match acc with
      | none => t
      | some m => max m t)) rest

theorem runOps_bounds (ops : List StoreOp) (s : EventStore) :
    (runOps s ops).minTime = minOfTimes s.minTime (insertedTimes ops) ∧
    (runOps s ops).maxTime = maxOfTimes s.maxTime (insertedTimes ops) := by
  induction ops generalizing s with
  | nil => exact ⟨rfl, rfl⟩
  | cons op rest ih =>
    cases op with
    | putPre e => exact ih (s.putEvent EventType.preGenerated e)
    | putUser e => exact ih (s.putEvent EventType.userGenerated e)
    | clearUser =>
      have h := ih s.clearUserGeneratedEvents
      rw [clear_minTime, clear_maxTime] at h
      exact h

def demoUser10 : Event :=
  { time := 10
    state_type := "door"
    state_key := "frontDoor"
    new_value := EventValue.bool true
    message := "late user override" }

/-- Counterexample to claim C5 as stated: insert a pre-generated event at time
5 and a user-generated event at time 10, then clear the user-generated layer.
`maxTime` stays `10`, yet no currently-stored event has time `10`, so the
bounds are no longer the tightest bounds of the events currently stored. -/
theorem claim_C5_counterexample :
    (runOps EventStore.emptyStore
        [StoreOp.putPre demoPre, StoreOp.putUser demoUser10, StoreOp.clearUser]).maxTime
      = some 10 ∧
    ((runOps EventStore.emptyStore
        [StoreOp.putPre demoPre, StoreOp.putUser demoUser10, StoreOp.clearUser]).storedEvents.map
          Event.time).contains 10 = false := by
  refine ⟨rfl, ?_⟩
  rfl

/-- Claim C5 (amended): after every operation sequence, `minTime`/`maxTime` are
the running minimum/maximum of the times of all events *inserted so far* —
tight for the stored events as long as no clear intervened, but not shrunk by
`clearUserGeneratedEvents` — and they are monotone non-shrinking under
insertion. -/
theorem claim_C5 :
    (∀ ops : List StoreOp,
      (runOps EventStore.emptyStore ops).minTime = minOfTimes none (insertedTimes ops) ∧
      (runOps EventStore.emptyStore ops).maxTime = maxOfTimes none (insertedTimes ops)) ∧
    (∀ (s : EventStore) (eventType : EventType) (e : Event),
      (∀ m, s.minTime = some m →
        ∃ m2, (s.putEvent eventType e).minTime = some m2 ∧ m2 ≤ m) ∧
      (∀ m, s.maxTime = some m →
        ∃ m2, (s.putEvent eventType e).maxTime = some m2 ∧ m ≤ m2)) := by
  constructor
  · intro ops
    exact runOps_bounds ops EventStore.emptyStore
  · intro s eventType e
    constructor
    · intro m hm
      refine ⟨min m e.time, ?_, min_le_left _ _⟩
      simp [EventStore.putEvent, hm]
    · intro m hm
      refine ⟨max m e.time, ?_, le_max_left _ _⟩
      simp [EventStore.putEvent, hm]

/-- Witness for C5: the bounds after one insertion, and the widening of the
demo store's bounds by a further insertion. -/
theorem claim_C5_witness :
    ((runOps EventStore.emptyStore [StoreOp.putPre demoPre]).minTime
        = minOfTimes none (insertedTimes [StoreOp.putPre demoPre])) ∧
    ∃ m2, (demoStore.putEvent EventType.userGenerated demoUser10).maxTime = some m2 ∧
      5 ≤ m2 :=
  ⟨(claim_C5.1 [StoreOp.putPre demoPre]).1,
   (claim_C5.2 demoStore EventType.userGenerated demoUser10).2 5 rfl⟩

/-! ### The class-level `map` attribute shared by all EventStore instances

In the source, `map: EventMap = {}` is a class attribute of `EventStore` and
no method ever assigns `self.map`, so attribute lookup resolves `self.map` on
every instance to the one class-level dictionary, which `putEvents` mutates in
place.  `minTime`/`maxTime`, by contrast, are set per instance.  This models a
process holding two independently constructed stores A and B: constructing an
instance runs no `__init__`, so it contributes nothing to the state. -/

structure EventStoreProcess where
  classMap : List (Int × (List (String × EventContainer)))
  minTimeA : Option Int
  maxTimeA : Option Int
  minTimeB : Option Int
  maxTimeB : Option Int
  deriving DecidableEq, Repr

/-- The process state after `A = EventStore(); B = EventStore()`. -/
def EventStoreProcess.fresh : EventStoreProcess :=
  { classMap := []
    minTimeA := none
    maxTimeA := none
    minTimeB := none
    maxTimeB := none }

/-- `A.putEvents(eventType, e)`: mutates the shared class-level map and A's
own bound attributes. -/
def EventStoreProcess.putEventViaA (p : EventStoreProcess) (eventType : EventType)
    (e : Event) : EventStoreProcess :=
  { p with
    classMap := assocUpdate p.classMap e.time [] (fun slot =>
      assocUpdate slot e.state_key EventContainer.empty (fun c => c.put eventType e))
    minTimeA := some (match p.minTimeA with
      | none => e.time
      | some m => min m e.time)
    maxTimeA := some (match p.maxTimeA with
      | none => e.time
      | some m => max m e.time) }

/-- Instance A as an `EventStore` view: its `self.map` is the class map. -/
def EventStoreProcess.storeA (p : EventStoreProcess) : EventStore :=
  { map := p.classMap, minTime := p.minTimeA, maxTime := p.maxTimeA }

/-- Instance B as an `EventStore` view: its `self.map` is the same class map. -/
def EventStoreProcess.storeB (p : EventStoreProcess) : EventStore :=
  { map := p.classMap, minTime := p.minTimeB, maxTime := p.maxTimeB }

theorem isEmpty_false_of_ne_nil {α : Type} {l : List α} (h : l ≠ []) :
    l.isEmpty = false := by
  cases l with
  | nil => exact absurd rfl h
  | cons hd tl => rfl

theorem mem_storedEvents_put (s : EventStore) (eventType : EventType) (e : Event) :
    e ∈ (s.putEvent eventType e).storedEvents := by
  unfold EventStore.storedEvents EventStore.putEvent
  have h1 := assocGet_update_self s.map e.time []
    (fun slot => assocUpdate slot e.state_key EventContainer.empty
      (fun c => c.put eventType e))
  have hmem1 := assocGet_mem h1
  have h2 := assocGet_update_self ((assocGet s.map e.time).getD []) e.state_key
    EventContainer.empty (fun c => c.put eventType e)
  have hmem2 := assocGet_mem h2
  apply List.mem_flatMap.mpr
  refine ⟨_, hmem1, ?_⟩
  apply List.mem_flatMap.mpr
  refine ⟨_, hmem2, ?_⟩
  cases eventType with
  | preGenerated => simp [EventContainer.put]
  | userGenerated => simp [EventContainer.put]

/-- Counterexample to claim C6 as stated: with both stores freshly
constructed, inserting an event through instance A changes instance B's
observable state — B is no longer empty and B sees A's event — because
`EventStore.map` is one process-wide class-level container. -/
theorem claim_C6_counterexample :
    EventStoreProcess.fresh.storeB.isEmpty = true ∧
    (EventStoreProcess.fresh.putEventViaA EventType.preGenerated demoPre).storeB.isEmpty
      = false ∧
    (EventStoreProcess.fresh.putEventViaA EventType.preGenerated demoPre).storeB.storedEvents
      = [demoPre] :=
  ⟨rfl, rfl, rfl⟩

/-- Claim C6 (amended): the event container is a single class-level map shared
by every `EventStore` instance — after any insertion through instance A, B's
map is identical to A's, B is observably non-empty, and B can retrieve the
event A inserted. -/
theorem claim_C6 (p : EventStoreProcess) (eventType : EventType) (e : Event) :
    (p.putEventViaA eventType e).storeB.map = (p.putEventViaA eventType e).storeA.map ∧
    (p.putEventViaA eventType e).storeB.isEmpty = false ∧
    e ∈ (p.putEventViaA eventType e).storeB.storedEvents := by
  refine ⟨rfl, ?_, ?_⟩
  · exact isEmpty_false_of_ne_nil (assocUpdate_ne_nil _ _ _ _)
  · have h := mem_storedEvents_put (p.storeB) eventType e
    exact h

/-! ### The user-generated-event route (`public/app.py`)

The `check_type` validation and JSON handling live in the excluded transport
layer; the route logic after it — thermostat bound checks before any
mutation, then clock-stamping (`event["time"] = int(APP_CLOCK.time())`) and
insertion — is modelled here.  `toIntPy` mirrors how a Python comparison would
coerce a boolean `new_value` (`True = 1`, `False = 0`); a thermostat event
reaching the route always carries an integer value. -/

def EventValue.toIntPy : EventValue → Int
  | EventValue.int n => n
  | EventValue.bool b => if b then 1 else 0

def isThermostatEvent (e : Event) : Bool :=
  e.state_key == "thermostatTemp"

def userGeneratedEvent (store : EventStore) (e : Event) (clockNow : Int) :
    Option String × EventStore :=
  if isThermostatEvent e && decide (e.new_value.toIntPy < MIN_THERMOSTAT_TEMP) then
    (some ("The thermostat temperature should not be less than 55"), store)
  else if isThermostatEvent e && decide (MAX_THERMOSTAT_TEMP < e.new_value.toIntPy) then
    (some ("The thermostat temperature should not be greater than 85"), store)
  else
    (none, store.putEvent EventType.userGenerated { e with time := clockNow })

/-- Claim C10: a thermostat submission whose value lies outside the configured
bounds is rejected with a descriptive failure and the store is unchanged; a
submission within bounds is clock-stamped and inserted. -/
theorem claim_C10 (store : EventStore) (e : Event) (clockNow : Int)
    (hkey : e.state_key = "thermostatTemp") :
    ((e.new_value.toIntPy < MIN_THERMOSTAT_TEMP ∨
        MAX_THERMOSTAT_TEMP < e.new_value.toIntPy) →
      (userGeneratedEvent store e clockNow).fst.isSome = true ∧
      (userGeneratedEvent store e clockNow).snd = store) ∧
    (MIN_THERMOSTAT_TEMP ≤ e.new_value.toIntPy →
      e.new_value.toIntPy ≤ MAX_THERMOSTAT_TEMP →
      (userGeneratedEvent store e clockNow).fst = none ∧
      (userGeneratedEvent store e clockNow).snd
        = store.putEvent EventType.userGenerated { e with time := clockNow }) := by
  have hth : isThermostatEvent e = true := by
    simp [isThermostatEvent, hkey]
  constructor
  · rintro (hlo | hhi)
    · constructor <;> simp [userGeneratedEvent, hth, hlo]
    · have h1 : ¬ (e.new_value.toIntPy < MIN_THERMOSTAT_TEMP) := by
        unfold MIN_THERMOSTAT_TEMP
        unfold MAX_THERMOSTAT_TEMP at hhi
        omega
      constructor <;> simp [userGeneratedEvent, hth, h1, hhi]
  · intro h1 h2
    have c1 : ¬ (e.new_value.toIntPy < MIN_THERMOSTAT_TEMP) := not_lt.mpr h1
    have c2 : ¬ (MAX_THERMOSTAT_TEMP < e.new_value.toIntPy) := not_lt.mpr h2
    constructor <;> simp [userGeneratedEvent, hth, c1, c2]

def thermostatSubmission (v : Int) : Event :=
  { time := 0
    state_type := "temp"
    state_key := "thermostatTemp"
    new_value := EventValue.int v
    message := "thermostat change" }

/-- Witness for C10: a thermostat submission of 100°F (above the 85°F bound)
is rejected and leaves the demo store unchanged. -/
theorem claim_C10_witness :
    (userGeneratedEvent demoStore (thermostatSubmission 100) 7).fst.isSome = true ∧
    (userGeneratedEvent demoStore (thermostatSubmission 100) 7).snd = demoStore :=
  (claim_C10 demoStore (thermostatSubmission 100) 7 rfl).1 (Or.inr (by decide))

end SmartHome
